import Mathlib

/-!
Shallow embedding of `mtglabels/generator.py` (mtg-printable-set-label-generator).

The layout/pagination engine of `LabelGenerator` is embedded as pure Lean
functions over `ℤ`/`ℕ`/`ℚ`: Python `int` becomes `ℤ` (or `ℕ` for loop
indices and counts), Python float arithmetic on geometry becomes exact `ℚ`
arithmetic, Python `//` on ints becomes `Int.fdiv` (floor division), and
dictionaries of label data become a type parameter `α` carried through the
layout unchanged.  Fallible I/O (network fetches, file writes, template
rendering) is glue outside the embedded core; the page loop of
`generate_labels` / `generate_color_set_mode` is embedded as the pure
chunking function `paginate`.
-/

/-- Class attribute `LabelGenerator.COLS = 4`. -/
def COLS : ℕ := 4

/-- Class attribute `LabelGenerator.ROWS = 15`. -/
def ROWS : ℕ := 15

/-- Class attribute `LabelGenerator.MARGIN = 100` (tenths of a millimetre). -/
def CLASS_MARGIN : ℤ := 100

/-- Class attribute `LabelGenerator.START_X = MARGIN`; evaluated once at class
creation, so it stays `100` even when an instance overrides `self.MARGIN`. -/
def START_X : ℤ := CLASS_MARGIN

/-- Class attribute `LabelGenerator.START_Y = MARGIN`; like `START_X` it is
fixed at `100` regardless of any per-instance margin override. -/
def START_Y : ℤ := CLASS_MARGIN

/-- Class attribute `LabelGenerator.WIDE_LABEL_MM = 88`. -/
def WIDE_LABEL_MM : ℤ := 88

/-- Module constant `MINIMUM_SET_SIZE = 50`. -/
def MINIMUM_SET_SIZE : ℕ := 50

/-- Module constant `IGNORED_SETS`. -/
def IGNORED_SETS : List String := ["cmb1", "amh1", "cmb2"]

/-- Module constant `SET_TYPES` (the commented-out entries are absent). -/
def SET_TYPES : List String :=
  ["core", "expansion", "starter", "masters", "commander", "planechase",
   "draft_innovation", "duel_deck", "premium_deck", "from_the_vault",
   "archenemy", "box", "funny"]

/-- `PAPER_SIZES["letter"]` as a `(width, height)` pair, in tenths of a mm. -/
def letterPaper : ℤ × ℤ := (2790, 2160)

/-- `PAPER_SIZES["a4"]` as a `(width, height)` pair, in tenths of a mm. -/
def a4Paper : ℤ × ℤ := (2970, 2100)

/-- The mutable configuration state of a `LabelGenerator` instance: the paper
geometry plus the selection parameters that `generate_labels` /
`generate_color_set_mode` may overwrite. -/
structure LabelGenerator where
  portrait : Bool
  width : ℤ
  height : ℤ
  MARGIN : ℤ
  delta_x : ℚ
  delta_y : ℚ
  set_codes : List String
  ignored_sets : List String
  set_types : List String
  minimum_set_size : ℕ
deriving DecidableEq

/-- `LabelGenerator.__init__`: swaps the paper dimensions when `portrait` is
set, applies the optional margin override (`marginOverride` is the already
converted `int(round(margin_mm * 10))`, in tenths of a millimetre), then
derives `delta_x`/`delta_y` by true (float, here `ℚ`) division, and installs
the default selection parameters. -/
def LabelGenerator.init (paperW paperH : ℤ) (portrait : Bool)
    (marginOverride : Option ℤ) : LabelGenerator :=
  let w : ℤ := if portrait then paperH else paperW
  let h : ℤ := if portrait then paperW else paperH
  let m : ℤ := marginOverride.getD CLASS_MARGIN
  { portrait := portrait
    width := w
    height := h
    MARGIN := m
    delta_x := ((w : ℚ) - 2 * (m : ℚ)) / (COLS : ℚ)
    delta_y := ((h : ℚ) - 2 * (m : ℚ)) / (ROWS : ℚ)
    set_codes := []
    ignored_sets := IGNORED_SETS
    set_types := SET_TYPES
    minimum_set_size := MINIMUM_SET_SIZE }

/-- The position fields that `layout_labels` adds to each raw item dict. -/
structure Pos where
  x : ℚ
  y : ℚ
deriving DecidableEq

/-- The column computed in the `layout_labels` loop body:
`col = (idx // self.ROWS) % self.COLS`. -/
def uniformCol (idx : ℕ) : ℕ := (idx / ROWS) % COLS

/-- The row computed in the `layout_labels` loop body: `row = idx % self.ROWS`. -/
def uniformRow (idx : ℕ) : ℕ := idx % ROWS

/-- The position assigned by the `layout_labels` loop body to the item at
global index `idx`: `x = START_X + col * delta_x`, `y = START_Y + row * delta_y`. -/
def uniformPos (g : LabelGenerator) (idx : ℕ) : Pos :=
  { x := (START_X : ℚ) + (uniformCol idx : ℚ) * g.delta_x
    y := (START_Y : ℚ) + (uniformRow idx : ℚ) * g.delta_y }

/-- The `for idx, item in enumerate(raw_items)` loop of `layout_labels`,
with the running index made explicit. -/
def layoutLabelsFrom (g : LabelGenerator) : ℕ → List α → List (α × Pos)
  | _, [] => []
  | idx, item :: rest => (item, uniformPos g idx) :: layoutLabelsFrom g (idx + 1) rest

/-- `LabelGenerator.layout_labels`: pair every raw item with its grid
position, enumerating from global index 0. -/
def layout_labels (g : LabelGenerator) (raw : List α) : List (α × Pos) :=
  layoutLabelsFrom g 0 raw

theorem layoutLabelsFrom_length (g : LabelGenerator) (k : ℕ) (raw : List α) :
    (layoutLabelsFrom g k raw).length = raw.length := by
  induction raw generalizing k with
  | nil => rfl
  | cons a l ih => simp [layoutLabelsFrom, ih]

theorem layout_labels_length (g : LabelGenerator) (raw : List α) :
    (layout_labels g raw).length = raw.length :=
  layoutLabelsFrom_length g 0 raw

theorem layoutLabelsFrom_get (g : LabelGenerator) (k : ℕ) (raw : List α)
    (i : ℕ) (hi : i < raw.length) :
    (layoutLabelsFrom g k raw).get ⟨i, by rw [layoutLabelsFrom_length]; exact hi⟩ =
      (raw.get ⟨i, hi⟩, uniformPos g (k + i)) := by
  induction raw generalizing k i with
  | nil => exact absurd hi (Nat.not_lt_zero i)
  | cons a l ih =>
    cases i with
    | zero => simp [layoutLabelsFrom]
    | succ j =>
      have hj : j < l.length := Nat.lt_of_succ_lt_succ hi
      have := ih (k + 1) j hj
      simpa [layoutLabelsFrom, Nat.add_assoc, Nat.add_comm 1 j] using this

theorem layout_labels_get (g : LabelGenerator) (raw : List α)
    (i : ℕ) (hi : i < raw.length) :
    (layout_labels g raw).get ⟨i, by rw [layout_labels_length]; exact hi⟩ =
      (raw.get ⟨i, hi⟩, uniformPos g i) := by
  have := layoutLabelsFrom_get g 0 raw i hi
  simpa [layout_labels] using this

/-- The page loop shared by `generate_labels` and `generate_color_set_mode`:
repeatedly pop up to `n` leading labels into a page until none remain.  Each
iteration of the outer `while labels:` loop produces one page holding the
next `n` labels (fewer on the final page). -/
def paginate (n : ℕ) : List α → List (List α)
  | [] => []
  | a :: rest =>
    if h : n = 0 then []
    else (a :: rest).take n :: paginate n ((a :: rest).drop n)
termination_by l => l.length
decreasing_by
  simp only [List.length_drop, List.length_cons]
  exact Nat.sub_lt (Nat.succ_pos _) (Nat.pos_of_ne_zero h)

/-- `generate_labels` builds its pages by popping `ROWS * COLS` labels at a
time from the output of `layout_labels`. -/
def generate_labels_pages (g : LabelGenerator) (raw : List α) :
    List (List (α × Pos)) :=
  paginate (ROWS * COLS) (layout_labels g raw)

/-- The cell width of a wide label: `cell_w = self.WIDE_LABEL_MM * 10`. -/
def wideCellW : ℤ := WIDE_LABEL_MM * 10

/-- The dynamic column count of `layout_wide_labels` (stored as
`self._wide_cols`): `cols = max(1, int(usable // cell_w))` where
`usable = self.width - 2 * self.MARGIN`; Python `//` on ints is floor
division, i.e. `Int.fdiv`. -/
def layoutWideCols (g : LabelGenerator) : ℕ :=
  (max 1 ((g.width - 2 * g.MARGIN).fdiv wideCellW)).toNat

/-- The fields `layout_wide_labels` adds to a raw item: position, the cell
width override, and the page index `_page`. -/
structure WidePos where
  x : ℚ
  y : ℚ
  width : ℤ
  page : ℕ
deriving DecidableEq

/-- The body of the `layout_wide_labels` loop at global index `idx`:
`col = idx % cols`, `row = (idx // cols) % ROWS`,
`page = idx // (cols * ROWS)`, `x = START_X + col * cell_w`,
`y = START_Y + row * delta_y`. -/
def widePos (g : LabelGenerator) (cols : ℕ) (idx : ℕ) : WidePos :=
  { x := (START_X : ℚ) + ((idx % cols : ℕ) : ℚ) * (wideCellW : ℚ)
    y := (START_Y : ℚ) + ((idx / cols % ROWS : ℕ) : ℚ) * g.delta_y
    width := wideCellW
    page := idx / (cols * ROWS) }

/-- The `for idx, item in enumerate(raw_items)` loop of `layout_wide_labels`,
with the running index made explicit. -/
def layoutWideFrom (g : LabelGenerator) (cols : ℕ) : ℕ → List α → List (α × WidePos)
  | _, [] => []
  | idx, item :: rest => (item, widePos g cols idx) :: layoutWideFrom g cols (idx + 1) rest

/-- `LabelGenerator.layout_wide_labels`. -/
def layout_wide_labels (g : LabelGenerator) (raw : List α) : List (α × WidePos) :=
  layoutWideFrom g (layoutWideCols g) 0 raw

/-- The page loop of `generate_color_set_mode`: page capacity is
`per_page = self._wide_cols * self.ROWS`, where `_wide_cols` was stored by
`layout_wide_labels`. -/
def generate_color_set_pages (g : LabelGenerator) (raw : List α) :
    List (List (α × WidePos)) :=
  paginate (layoutWideCols g * ROWS) (layout_wide_labels g raw)

/-- A cutting-guide line segment dict `{x1, x2, y1, y2}`. -/
structure Guide where
  x1 : ℚ
  x2 : ℚ
  y1 : ℚ
  y2 : ℚ
deriving DecidableEq

/-- `LabelGenerator.create_vertical_cutting_guides`: for each
`i in range(self.COLS + 1)` append a top tick and a bottom tick at
`x = self.MARGIN + i * self.delta_x`. -/
def create_vertical_cutting_guides (g : LabelGenerator) : List Guide :=
  (List.range (COLS + 1)).flatMap (fun i =>
    [{ x1 := (g.MARGIN : ℚ) + (i : ℚ) * g.delta_x
       x2 := (g.MARGIN : ℚ) + (i : ℚ) * g.delta_x
       y1 := (g.MARGIN : ℚ) / 2
       y2 := (g.MARGIN : ℚ) * (8 / 10) },
     { x1 := (g.MARGIN : ℚ) + (i : ℚ) * g.delta_x
       x2 := (g.MARGIN : ℚ) + (i : ℚ) * g.delta_x
       y1 := (g.height : ℚ) - (g.MARGIN : ℚ) / 2
       y2 := (g.height : ℚ) - (g.MARGIN : ℚ) * (8 / 10) }])

/-- `LabelGenerator.create_horizontal_cutting_guides`: for each
`i in range(self.ROWS + 1)` append a left tick and a right tick at
`y = self.MARGIN + i * self.delta_y`. -/
def create_horizontal_cutting_guides (g : LabelGenerator) : List Guide :=
  (List.range (ROWS + 1)).flatMap (fun i =>
    [{ x1 := (g.MARGIN : ℚ) / 2
       x2 := (g.MARGIN : ℚ) * (8 / 10)
       y1 := (g.MARGIN : ℚ) + (i : ℚ) * g.delta_y
       y2 := (g.MARGIN : ℚ) + (i : ℚ) * g.delta_y },
     { x1 := (g.width : ℚ) - (g.MARGIN : ℚ) / 2
       x2 := (g.width : ℚ) - (g.MARGIN : ℚ) * (8 / 10)
       y1 := (g.MARGIN : ℚ) + (i : ℚ) * g.delta_y
       y2 := (g.MARGIN : ℚ) + (i : ℚ) * g.delta_y }])

/-- The two ticks `_wide_vertical_guides` appends for column boundary `i`,
at `x = self.MARGIN + i * cell_w`. -/
def wideVerticalGuideTicks (g : LabelGenerator) (i : ℕ) : List Guide :=
  [{ x1 := ((g.MARGIN + (i : ℤ) * wideCellW : ℤ) : ℚ)
     x2 := ((g.MARGIN + (i : ℤ) * wideCellW : ℤ) : ℚ)
     y1 := (g.MARGIN : ℚ) / 2
     y2 := (g.MARGIN : ℚ) * (8 / 10) },
   { x1 := ((g.MARGIN + (i : ℤ) * wideCellW : ℤ) : ℚ)
     x2 := ((g.MARGIN + (i : ℤ) * wideCellW : ℤ) : ℚ)
     y1 := (g.height : ℚ) - (g.MARGIN : ℚ) / 2
     y2 := (g.height : ℚ) - (g.MARGIN : ℚ) * (8 / 10) }]

/-- `LabelGenerator._wide_vertical_guides`: returns `[]` when `_wide_cols`
was never stored (`hasattr` guard); otherwise iterates
`i in range(self._wide_cols + 1)` and breaks out of the loop as soon as
`x > self.width - self.MARGIN`, appending the two ticks otherwise. -/
def wide_vertical_guides (g : LabelGenerator) (wideCols : Option ℕ) : List Guide :=
  match wideCols with
  | none => []
  | some c =>
    ((List.range (c + 1)).takeWhile
        (fun (i : ℕ) => decide (g.MARGIN + (i : ℤ) * wideCellW ≤ g.width - g.MARGIN))).flatMap
      (wideVerticalGuideTicks g)

/-- A Scryfall set record, restricted to the fields `get_set_data` reads. -/
structure SetRecord where
  code : String
  name : String
  set_type : String
  card_count : ℕ
deriving DecidableEq

/-- The `elif` chain in the `get_set_data` loop deciding whether a record is
kept.  Python truthiness of a tuple/list is modelled by `≠ []`. -/
def keepRecord (g : LabelGenerator) (exp : SetRecord) : Bool :=
  if exp.code ∈ g.ignored_sets then false
  else if exp.card_count < g.minimum_set_size then false
  else if g.set_types ≠ [] ∧ exp.set_type ∉ g.set_types then false
  else if g.set_codes ≠ [] ∧ exp.code.toLower ∉ g.set_codes then false
  else true

/-- `LabelGenerator.get_set_data` minus the HTTP fetch: filter the catalog
list by appending kept records to `set_data`, then reverse in place. -/
def get_set_data (g : LabelGenerator) (data : List SetRecord) : List SetRecord :=
  (data.foldl (fun acc exp => if keepRecord g exp then acc ++ [exp] else acc) []).reverse

/-- Membership in `specified_sets.difference(known_sets)` of `get_set_data`:
the code `c` is warned about iff it is one of the lowercased requested codes
and differs from the `code` of every record of the full catalog. -/
def unknown_set_warned (g : LabelGenerator) (data : List SetRecord) (c : String) : Bool :=
  decide (c ∈ g.set_codes.map String.toLower) && decide (c ∉ data.map SetRecord.code)

/-- Module constant `RENAME_SETS`, as an association list in source order
(Python dict keys are unique, so `lookup` agrees with `dict.get`). -/
def RENAME_SETS : List (String × String) := [
  ("Adventures in the Forgotten Realms", "Forgotten Realms"),
  ("Adventures in the Forgotten Realms Minigames", "Forgotten Realms Minigames"),
  ("Angels: They\x27re Just Like Us but Cooler and with Wings", "Angels: Just Like Us"),
  ("Archenemy: Nicol Bolas Schemes", "Archenemy: Bolas Schemes"),
  ("Chronicles Foreign Black Border", "Chronicles FBB"),
  ("Commander Anthology Volume II", "Commander Anthology II"),
  ("Commander Legends: Battle for Baldur\x27s Gate", "CMDR Legends: Baldur\x27s Gate"),
  ("Dominaria United Commander", "Dominaria United [C]"),
  ("Duel Decks: Elves vs. Goblins", "DD: Elves vs. Goblins"),
  ("Duel Decks: Jace vs. Chandra", "DD: Jace vs. Chandra"),
  ("Duel Decks: Divine vs. Demonic", "DD: Divine vs. Demonic"),
  ("Duel Decks: Garruk vs. Liliana", "DD: Garruk vs. Liliana"),
  ("Duel Decks: Phyrexia vs. the Coalition", "DD: Phyrexia vs. Coalition"),
  ("Duel Decks: Elspeth vs. Tezzeret", "DD: Elspeth vs. Tezzeret"),
  ("Duel Decks: Knights vs. Dragons", "DD: Knights vs. Dragons"),
  ("Duel Decks: Ajani vs. Nicol Bolas", "DD: Ajani vs. Nicol Bolas"),
  ("Duel Decks: Heroes vs. Monsters", "DD: Heroes vs. Monsters"),
  ("Duel Decks: Speed vs. Cunning", "DD: Speed vs. Cunning"),
  ("Duel Decks Anthology: Elves vs. Goblins", "DDA: Elves vs. Goblins"),
  ("Duel Decks Anthology: Jace vs. Chandra", "DDA: Jace vs. Chandra"),
  ("Duel Decks Anthology: Divine vs. Demonic", "DDA: Divine vs. Demonic"),
  ("Duel Decks Anthology: Garruk vs. Liliana", "DDA: Garruk vs. Liliana"),
  ("Duel Decks: Elspeth vs. Kiora", "DD: Elspeth vs. Kiora"),
  ("Duel Decks: Zendikar vs. Eldrazi", "DD: Zendikar vs. Eldrazi"),
  ("Duel Decks: Blessed vs. Cursed", "DD: Blessed vs. Cursed"),
  ("Duel Decks: Nissa vs. Ob Nixilis", "DD: Nissa vs. Ob Nixilis"),
  ("Duel Decks: Merfolk vs. Goblins", "DD: Merfolk vs. Goblins"),
  ("Duel Decks: Elves vs. Inventors", "DD: Elves vs. Inventors"),
  ("Duel Decks: Mirrodin Pure vs. New Phyrexia", "DD: Mirrodin vs.New Phyrexia"),
  ("Duel Decks: Izzet vs. Golgari", "Duel Decks: Izzet vs. Golgari"),
  ("Fourth Edition Foreign Black Border", "Fourth Edition FBB"),
  ("Global Series Jiang Yanggu & Mu Yanling", "Jiang Yanggu & Mu Yanling"),
  ("Innistrad: Crimson Vow Minigames", "Crimson Vow Minigames"),
  ("Introductory Two-Player Set", "Intro Two-Player Set"),
  ("March of the Machine: The Aftermath", "MotM: The Aftermath"),
  ("March of the Machine Commander", "March of the Machine [C]"),
  ("Murders at Karlov Manor Commander", "Murders at Karlov Manor [C]"),
  ("Mystery Booster Playtest Cards", "Mystery Booster Playtest"),
  ("Mystery Booster Playtest Cards 2019", "MB Playtest Cards 2019"),
  ("Mystery Booster Playtest Cards 2021", "MB Playtest Cards 2021"),
  ("Mystery Booster Retail Edition Foils", "Mystery Booster Retail Foils"),
  ("Outlaws of Thunder Junction Commander", "Outlaws of Thunder Junction [C]"),
  ("Phyrexia: All Will Be One Commander", "Phyrexia: All Will Be One [C]"),
  ("Planechase Anthology Planes", "Planechase Anth. Planes"),
  ("Premium Deck Series: Slivers", "Premium Deck Slivers"),
  ("Premium Deck Series: Graveborn", "Premium Deck Graveborn"),
  ("Premium Deck Series: Fire and Lightning", "PD: Fire & Lightning"),
  ("Shadows over Innistrad Remastered", "SOI Remastered"),
  ("Strixhaven: School of Mages Minigames", "Strixhaven Minigames"),
  ("Tales of Middle-earth Commander", "Tales of Middle-earth [C]"),
  ("The Brothers\x27 War Retro Artifacts", "Brothers\x27 War Retro"),
  ("The Brothers\x27 War Commander", "Brothers\x27 War Commander"),
  ("The Lord of the Rings: Tales of Middle-earth", "LOTR: Tales of Middle-earth"),
  ("The Lost Caverns of Ixalan Commander", "The Lost Caverns of Ixalan [C]"),
  ("Warhammer 40,000 Commander", "Warhammer 40K [C]"),
  ("Wilds of Eldraine Commander", "Wilds of Eldraine [C]"),
  ("World Championship Decks 1997", "World Championship 1997"),
  ("World Championship Decks 1998", "World Championship 1998"),
  ("World Championship Decks 1999", "World Championship 1999"),
  ("World Championship Decks 2000", "World Championship 2000"),
  ("World Championship Decks 2001", "World Championship 2001"),
  ("World Championship Decks 2002", "World Championship 2002"),
  ("World Championship Decks 2003", "World Championship 2003"),
  ("World Championship Decks 2004", "World Championship 2004")]

/-- The name override applied per surviving item:
`name = RENAME_SETS.get(exp["name"], exp["name"])`. -/
def renameSet (n : String) : String := (RENAME_SETS.lookup n).getD n

/-- The `if sets:` prologue shared by `generate_labels` and
`generate_color_set_mode`: a non-empty explicit set list permanently clears
`ignored_sets`, `minimum_set_size` and `set_types` and installs the
lowercased codes. -/
def applySetsArg (g : LabelGenerator) (sets : List String) : LabelGenerator :=
  if sets = [] then g
  else { g with ignored_sets := []
                minimum_set_size := 0
                set_types := []
                set_codes := sets.map String.toLower }

/-- Modelled from the spec (§4.1): the selection rule as the specification
words it — drop ignored codes, drop records below the minimum size, drop
records whose category is outside the allowed set unless that set is empty,
and, when an explicit allow-list is present, drop records whose lowercased
code is not listed. -/
def specKeep (g : LabelGenerator) (exp : SetRecord) : Bool :=
  decide (exp.code ∉ g.ignored_sets) &&
    decide (g.minimum_set_size ≤ exp.card_count) &&
    (decide (g.set_types = []) || decide (exp.set_type ∈ g.set_types)) &&
    (decide (g.set_codes = []) || decide (exp.code.toLower ∈ g.set_codes))

/-- Modelled from the spec (§4.1): survivors of the spec-side selection, in
reversed catalog order. -/
def specSelection (g : LabelGenerator) (data : List SetRecord) : List SetRecord :=
  (data.filter (specKeep g)).reverse

/-- Modelled from the spec (§4.1 side effect): a listed code is warned about
iff it matches no record of the full catalog. -/
def specUnknownWarned (g : LabelGenerator) (data : List SetRecord) (c : String) : Bool :=
  decide (c ∈ g.set_codes.map String.toLower) &&
    data.all (fun r => !(r.code == c))

theorem paginate_cons_eq (n : ℕ) (hn : n ≠ 0) (a : α) (rest : List α) :
    paginate n (a :: rest) =
      (a :: rest).take n :: paginate n ((a :: rest).drop n) := by
  rw [paginate]
  simp [hn]

theorem paginate_nil (n : ℕ) : paginate n ([] : List α) = [] := by
  rw [paginate]

theorem paginate_eq_of_ne_nil (n : ℕ) (hn : n ≠ 0) (l : List α) (hl : l ≠ []) :
    paginate n l = l.take n :: paginate n (l.drop n) := by
  cases l with
  | nil => exact absurd rfl hl
  | cons a rest => exact paginate_cons_eq n hn a rest

theorem paginate_length (n : ℕ) (hn : n ≠ 0) :
    ∀ l : List α, (paginate n l).length = (l.length + n - 1) / n
  | [] => by
    have h1 : n - 1 < n := Nat.sub_lt (Nat.pos_of_ne_zero hn) Nat.one_pos
    simp [paginate, Nat.div_eq_of_lt h1]
  | a :: rest => by
    rw [paginate_cons_eq n hn a rest]
    have ih := paginate_length n hn ((a :: rest).drop n)
    simp only [List.length_cons, List.length_drop] at ih ⊢
    rw [ih]
    rcases le_or_lt (rest.length + 1) n with hLn | hLn
    · have h0 : rest.length + 1 - n = 0 := Nat.sub_eq_zero_of_le hLn
      rw [h0]
      have hz : (0 + n - 1) / n = 0 :=
        Nat.div_eq_of_lt (by omega)
      rw [hz]
      have : (rest.length + 1 + n - 1) / n = 1 :=
        Nat.div_eq_of_lt_le (by omega) (by omega)
      omega
    · have h1 : rest.length + 1 - n + n - 1 = rest.length := by omega
      have h2 : rest.length + 1 + n - 1 = rest.length + n := by omega
      rw [h1, h2, Nat.add_div_right _ (Nat.pos_of_ne_zero hn)]
termination_by l => l.length
decreasing_by
  simp only [List.length_drop, List.length_cons]
  exact Nat.sub_lt (Nat.succ_pos _) (Nat.pos_of_ne_zero hn)

theorem paginate_get (n : ℕ) (hn : n ≠ 0) :
    ∀ (l : List α) (k : ℕ) (hk : k < (paginate n l).length),
      (paginate n l).get ⟨k, hk⟩ = (l.drop (n * k)).take n
  | [], k, hk => by simp [paginate] at hk
  | a :: rest, 0, hk => by
    rw [List.get_of_eq (paginate_cons_eq n hn a rest)]
    simp
  | a :: rest, k + 1, hk => by
    have hk' : k + 1 < (paginate n (a :: rest)).length := hk
    rw [List.get_of_eq (paginate_cons_eq n hn a rest)]
    have hklt : k < (paginate n ((a :: rest).drop n)).length := by
      have := hk'
      rw [paginate_cons_eq n hn a rest] at this
      simpa using this
    have ih := paginate_get n hn ((a :: rest).drop n) k hklt
    simp only [List.get_cons_succ]
    rw [ih, List.drop_drop]
    have hidx : n + n * k = n * (k + 1) := by ring
    rw [hidx]
termination_by l => l.length
decreasing_by
  simp only [List.length_drop, List.length_cons]
  exact Nat.sub_lt (Nat.succ_pos _) (Nat.pos_of_ne_zero hn)

theorem paginate_flatten (n : ℕ) (hn : n ≠ 0) :
    ∀ l : List α, (paginate n l).flatten = l
  | [] => by simp [paginate]
  | a :: rest => by
    rw [paginate_cons_eq n hn a rest]
    rw [List.flatten_cons, paginate_flatten n hn ((a :: rest).drop n)]
    exact List.take_append_drop n (a :: rest)
termination_by l => l.length
decreasing_by
  simp only [List.length_drop, List.length_cons]
  exact Nat.sub_lt (Nat.succ_pos _) (Nat.pos_of_ne_zero hn)

theorem paginate_ne_nil (n : ℕ) (hn : n ≠ 0) (l : List α) (hl : l ≠ []) :
    paginate n l ≠ [] := by
  rw [paginate_eq_of_ne_nil n hn l hl]
  exact List.cons_ne_nil _ _

theorem paginate_getLast_length (n : ℕ) (hn : n ≠ 0) :
    ∀ (l : List α) (hp : paginate n l ≠ []),
      ((paginate n l).getLast hp).length =
        if l.length % n = 0 then n else l.length % n
  | [], hp => by simp [paginate] at hp
  | a :: rest, hp => by
    rcases le_or_lt (rest.length + 1) n with hLn | hLn
    · have hdrop : (a :: rest).drop n = [] := by
        apply List.drop_eq_nil_of_le
        simpa using hLn
      have hpag : paginate n (a :: rest) = [(a :: rest).take n] := by
        rw [paginate_cons_eq n hn a rest, hdrop, paginate_nil]
      have h1 : (paginate n (a :: rest)).getLast hp = (a :: rest).take n := by
        rw [List.getLast_congr hp (List.cons_ne_nil _ _) hpag]
        exact List.getLast_singleton _ _
      rw [h1]
      simp only [List.length_take, List.length_cons]
      have hmin : min n (rest.length + 1) = rest.length + 1 := Nat.min_eq_right hLn
      rw [hmin]
      rcases Nat.lt_or_eq_of_le hLn with hlt | heq
      · rw [Nat.mod_eq_of_lt hlt]
        have hne : rest.length + 1 ≠ 0 := Nat.succ_ne_zero _
        simp [hne]
      · rw [heq, Nat.mod_self]
        simp
    · have hdrop : (a :: rest).drop n ≠ [] := by
        simp only [ne_eq, List.drop_eq_nil_iff, List.length_cons]
        omega
      have hp2 : paginate n ((a :: rest).drop n) ≠ [] :=
        paginate_ne_nil n hn _ hdrop
      have hcons : paginate n (a :: rest) =
          (a :: rest).take n :: paginate n ((a :: rest).drop n) :=
        paginate_cons_eq n hn a rest
      have hstep : (paginate n (a :: rest)).getLast hp =
          (paginate n ((a :: rest).drop n)).getLast hp2 := by
        rw [List.getLast_congr hp (List.cons_ne_nil _ _) hcons]
        exact List.getLast_cons hp2
      rw [hstep, paginate_getLast_length n hn ((a :: rest).drop n) hp2]
      simp only [List.length_drop, List.length_cons]
      have hmod : (rest.length + 1 - n) % n = (rest.length + 1) % n := by
        have hsum : rest.length + 1 - n + n = rest.length + 1 := by omega
        calc (rest.length + 1 - n) % n
            = (rest.length + 1 - n + n) % n := (Nat.add_mod_right _ n).symm
          _ = (rest.length + 1) % n := by rw [hsum]
      rw [hmod]
termination_by l => l.length
decreasing_by
  simp only [List.length_drop, List.length_cons]
  exact Nat.sub_lt (Nat.succ_pos _) (Nat.pos_of_ne_zero hn)

theorem layoutWideFrom_length (g : LabelGenerator) (c : ℕ) (k : ℕ) (raw : List α) :
    (layoutWideFrom g c k raw).length = raw.length := by
  induction raw generalizing k with
  | nil => rfl
  | cons a l ih => simp [layoutWideFrom, ih]

theorem layout_wide_labels_length (g : LabelGenerator) (raw : List α) :
    (layout_wide_labels g raw).length = raw.length :=
  layoutWideFrom_length g _ 0 raw

theorem layoutWideFrom_get (g : LabelGenerator) (c : ℕ) (k : ℕ) (raw : List α)
    (i : ℕ) (hi : i < raw.length) :
    (layoutWideFrom g c k raw).get ⟨i, by rw [layoutWideFrom_length]; exact hi⟩ =
      (raw.get ⟨i, hi⟩, widePos g c (k + i)) := by
  induction raw generalizing k i with
  | nil => exact absurd hi (Nat.not_lt_zero i)
  | cons a l ih =>
    cases i with
    | zero => simp [layoutWideFrom]
    | succ j =>
      have hj : j < l.length := Nat.lt_of_succ_lt_succ hi
      have := ih (k + 1) j hj
      simpa [layoutWideFrom, Nat.add_assoc, Nat.add_comm 1 j] using this

theorem layout_wide_labels_get (g : LabelGenerator) (raw : List α)
    (i : ℕ) (hi : i < raw.length) :
    (layout_wide_labels g raw).get ⟨i, by rw [layout_wide_labels_length]; exact hi⟩ =
      (raw.get ⟨i, hi⟩, widePos g (layoutWideCols g) i) := by
  have := layoutWideFrom_get g (layoutWideCols g) 0 raw i hi
  simpa [layout_wide_labels] using this

theorem uniformBlock_decompose (idx : ℕ) :
    idx % (ROWS * COLS) = ROWS * uniformCol idx + uniformRow idx := by
  unfold uniformCol uniformRow
  have h1 : idx % (ROWS * COLS) / ROWS = idx / ROWS % COLS :=
    Nat.mod_mul_right_div_self idx ROWS COLS
  have h2 : idx % (ROWS * COLS) % ROWS = idx % ROWS :=
    Nat.mod_mod_of_dvd idx ⟨COLS, rfl⟩
  have h3 := Nat.div_add_mod (idx % (ROWS * COLS)) ROWS
  have hR : ROWS = 15 := rfl
  have hC : COLS = 4 := rfl
  rw [hR, hC] at h1 h2 h3 ⊢
  omega

/-- **C1.** In uniform grid mode, the positioned label at global index `i`
carries `col = (i div ROWS) mod COLS`, `row = i mod ROWS`,
`x = START_X + col * delta_x`, `y = START_Y + row * delta_y`; no two distinct
indices of the same `ROWS * COLS` page share both `col` and `row`; and with
47 items the last item, `i = 46`, lands at `col = 3`, `row = 1`. -/
theorem uniform_layout_spec (g : LabelGenerator) (raw : List α)
    (i : ℕ) (hi : i < raw.length) :
    ((layout_labels g raw).get ⟨i, by rw [layout_labels_length]; exact hi⟩ =
      (raw.get ⟨i, hi⟩,
        { x := (START_X : ℚ) + (uniformCol i : ℚ) * g.delta_x
          y := (START_Y : ℚ) + (uniformRow i : ℚ) * g.delta_y }))
    ∧ (∀ j, j < raw.length → j ≠ i →
        j / (ROWS * COLS) = i / (ROWS * COLS) →
        ¬(uniformCol j = uniformCol i ∧ uniformRow j = uniformRow i))
    ∧ uniformCol 46 = 3 ∧ uniformRow 46 = 1 := by
  refine ⟨layout_labels_get g raw i hi, ?_, by decide, by decide⟩
  rintro j hj hne hpage ⟨hcol, hrow⟩
  apply hne
  have hdj := Nat.div_add_mod j (ROWS * COLS)
  have hdi := Nat.div_add_mod i (ROWS * COLS)
  have hbj := uniformBlock_decompose j
  have hbi := uniformBlock_decompose i
  have hR : ROWS = 15 := rfl
  have hC : COLS = 4 := rfl
  rw [hR, hC] at hdj hdi hbj hbi hpage
  omega

/-- Witness for **C1** at the concrete scenario input: 47 items, index 46. -/
theorem uniform_layout_spec_witness :
    46 < (List.replicate 47 (0 : ℕ)).length ∧
      uniformCol 46 = 3 ∧ uniformRow 46 = 1 :=
  ⟨by decide,
    (uniform_layout_spec (LabelGenerator.init 2790 2160 false none)
      (List.replicate 47 (0 : ℕ)) 46 (by decide)).2.2⟩

/-- **C2.** Uniform-mode pagination cuts the positioned-label list into
consecutive `ROWS * COLS`-sized chunks in input order; the page count is
`⌈N / (ROWS·COLS)⌉ = (N + ROWS·COLS − 1) / (ROWS·COLS)`; the last page holds
`N mod (ROWS·COLS)` labels (or `ROWS·COLS` when that remainder is 0); and
with no items no page is produced (hence no file is written). -/
theorem uniform_pagination_spec (g : LabelGenerator) (raw : List α) :
    (generate_labels_pages g raw).length =
        (raw.length + ROWS * COLS - 1) / (ROWS * COLS)
    ∧ (∀ (k : ℕ) (hk : k < (generate_labels_pages g raw).length),
        (generate_labels_pages g raw).get ⟨k, hk⟩ =
          ((layout_labels g raw).drop (ROWS * COLS * k)).take (ROWS * COLS))
    ∧ (generate_labels_pages g raw).flatten = layout_labels g raw
    ∧ (∀ hr : generate_labels_pages g raw ≠ [],
        ((generate_labels_pages g raw).getLast hr).length =
          if raw.length % (ROWS * COLS) = 0 then ROWS * COLS
          else raw.length % (ROWS * COLS))
    ∧ (raw = [] → generate_labels_pages g raw = []) := by
  have hn : ROWS * COLS ≠ 0 := by decide
  refine ⟨?_, ?_, ?_, ?_, ?_⟩
  · rw [generate_labels_pages, paginate_length _ hn, layout_labels_length]
  · intro k hk
    exact paginate_get _ hn _ k hk
  · exact paginate_flatten _ hn _
  · intro hr
    have := paginate_getLast_length (ROWS * COLS) hn (layout_labels g raw) hr
    rw [layout_labels_length] at this
    exact this
  · intro h
    subst h
    rw [generate_labels_pages]
    have hnil : layout_labels g ([] : List α) = [] := rfl
    rw [hnil, paginate_nil]

/-- Witness for **C2**: the empty-input hypothesis discharged concretely. -/
theorem uniform_pagination_spec_witness :
    (([] : List ℕ) = []) ∧
      generate_labels_pages (LabelGenerator.init 2790 2160 false none)
        ([] : List ℕ) = [] :=
  ⟨rfl, (uniform_pagination_spec (LabelGenerator.init 2790 2160 false none)
    ([] : List ℕ)).2.2.2.2 rfl⟩

theorem layoutWideCols_pos (g : LabelGenerator) : 1 ≤ layoutWideCols g := by
  unfold layoutWideCols
  have h1 : (1 : ℤ) ≤ max 1 ((g.width - 2 * g.MARGIN).fdiv wideCellW) :=
    le_max_left _ _
  omega

/-- **C3.** In wide grid mode the column count is
`max(1, floor(usable / (W_mm·10)))` with `usable = paper_width − 2·margin`;
it clamps to 1 (never 0) whenever `usable < W_mm·10`; and on letter paper
with the default margin 100 it is `floor(2590 / 880) = 2`. -/
theorem wide_columns_spec (g : LabelGenerator) :
    ((layoutWideCols g : ℤ) =
        max 1 ⌊((g.width : ℚ) - 2 * (g.MARGIN : ℚ)) / ((WIDE_LABEL_MM : ℚ) * 10)⌋)
    ∧ 1 ≤ layoutWideCols g
    ∧ (g.width - 2 * g.MARGIN < WIDE_LABEL_MM * 10 → layoutWideCols g = 1)
    ∧ layoutWideCols (LabelGenerator.init 2790 2160 false none) = 2 := by
  refine ⟨?_, layoutWideCols_pos g, ?_, by decide⟩
  · have hcast : ((g.width : ℚ) - 2 * (g.MARGIN : ℚ)) / ((WIDE_LABEL_MM : ℚ) * 10) =
        (((g.width - 2 * g.MARGIN : ℤ) : ℚ) / ((880 : ℕ) : ℚ)) := by
      norm_num [WIDE_LABEL_MM]
    rw [hcast, Rat.floor_intCast_div_natCast]
    have hfd : (g.width - 2 * g.MARGIN).fdiv wideCellW =
        (g.width - 2 * g.MARGIN) / ((880 : ℕ) : ℤ) := by
      rw [Int.fdiv_eq_ediv _ (by decide)]
      norm_num [wideCellW, WIDE_LABEL_MM]
    unfold layoutWideCols
    rw [hfd]
    have h1 : (1 : ℤ) ≤ max 1 ((g.width - 2 * g.MARGIN) / ((880 : ℕ) : ℤ)) :=
      le_max_left _ _
    omega
  · intro hlt
    unfold layoutWideCols
    have hcase : (g.width - 2 * g.MARGIN).fdiv wideCellW ≤ 0 := by
      rcases le_or_lt 0 (g.width - 2 * g.MARGIN) with hpos | hneg
      · have hlt' : g.width - 2 * g.MARGIN < wideCellW := hlt
        rw [Int.fdiv_eq_ediv _ (by decide)]
        rw [Int.ediv_eq_zero_of_lt hpos hlt']
      · exact le_of_lt (Int.fdiv_neg' hneg (by decide))
    have hmax : max 1 ((g.width - 2 * g.MARGIN).fdiv wideCellW) = 1 :=
      max_eq_left (hcase.trans zero_le_one)
    rw [hmax]
    rfl

/-- Witness for **C3**: with a 100 mm margin override on letter paper the
usable width 790 is below 880, and the column count clamps to 1. -/
theorem wide_columns_spec_witness :
    ((LabelGenerator.init 2790 2160 false (some 1000)).width -
        2 * (LabelGenerator.init 2790 2160 false (some 1000)).MARGIN <
      WIDE_LABEL_MM * 10) ∧
      layoutWideCols (LabelGenerator.init 2790 2160 false (some 1000)) = 1 :=
  ⟨by decide,
    (wide_columns_spec (LabelGenerator.init 2790 2160 false (some 1000))).2.2.1
      (by decide)⟩

/-- **C4.** In wide grid mode the item at global index `i` gets
`col = i mod columns`, `row = (i div columns) mod ROWS`,
`page_index = i div (columns·ROWS)`, `x = START_X + col·cell_width`,
`y = START_Y + row·delta_y` (the uniform-mode row delta); and the subsequent
pagination of `generate_color_set_mode` into `columns·ROWS`-sized chunks puts
every positioned label on the page named by its `page_index`. -/
theorem wide_layout_spec (g : LabelGenerator) (raw : List α)
    (i : ℕ) (hi : i < raw.length) :
    ((layout_wide_labels g raw).get
        ⟨i, by rw [layout_wide_labels_length]; exact hi⟩ =
      (raw.get ⟨i, hi⟩,
        { x := (START_X : ℚ) + ((i % layoutWideCols g : ℕ) : ℚ) * (wideCellW : ℚ)
          y := (START_Y : ℚ) + ((i / layoutWideCols g % ROWS : ℕ) : ℚ) * g.delta_y
          width := wideCellW
          page := i / (layoutWideCols g * ROWS) }))
    ∧ (∀ (k : ℕ) (hk : k < (generate_color_set_pages g raw).length),
        ∀ lb ∈ (generate_color_set_pages g raw).get ⟨k, hk⟩, lb.2.page = k) := by
  constructor
  · exact layout_wide_labels_get g raw i hi
  · intro k hk lb hmem
    have hc1 : 1 ≤ layoutWideCols g := layoutWideCols_pos g
    have hn : layoutWideCols g * ROWS ≠ 0 :=
      Nat.mul_ne_zero (by omega) (by decide)
    have hget := paginate_get (layoutWideCols g * ROWS) hn
      (layout_wide_labels g raw) k hk
    have hmem2 : lb ∈ ((layout_wide_labels g raw).drop
        (layoutWideCols g * ROWS * k)).take (layoutWideCols g * ROWS) := by
      rw [← hget]
      exact hmem
    obtain ⟨j, hj, hlb⟩ := List.mem_iff_getElem.mp hmem2
    have hjbounds : j < layoutWideCols g * ROWS ∧
        layoutWideCols g * ROWS * k + j < raw.length := by
      have hjlen := hj
      simp only [List.length_take, List.length_drop,
        layout_wide_labels_length, Nat.lt_min] at hjlen
      omega
    have hidx : layoutWideCols g * ROWS * k + j < raw.length := hjbounds.2
    have hval : lb = (raw.get ⟨layoutWideCols g * ROWS * k + j, hidx⟩,
        widePos g (layoutWideCols g) (layoutWideCols g * ROWS * k + j)) := by
      rw [← hlb]
      rw [← layout_wide_labels_get g raw _ hidx]
      simp [List.get_eq_getElem, List.getElem_take, List.getElem_drop]
    have hpage : (layoutWideCols g * ROWS * k + j) /
        (layoutWideCols g * ROWS) = k := by
      rw [Nat.mul_add_div (Nat.pos_of_ne_zero hn)]
      rw [Nat.div_eq_of_lt hjbounds.1]
      omega
    rw [hval]
    simp only [widePos]
    exact hpage

theorem wide_pages_len_pos :
    0 < (generate_color_set_pages (LabelGenerator.init 2790 2160 false none)
      (List.replicate 1 (0 : ℕ))).length := by
  rw [generate_color_set_pages, paginate_length _ (by decide),
    layout_wide_labels_length]
  decide

theorem wide_witness_mem :
    ((0 : ℕ), widePos (LabelGenerator.init 2790 2160 false none)
        (layoutWideCols (LabelGenerator.init 2790 2160 false none)) 0) ∈
      (generate_color_set_pages (LabelGenerator.init 2790 2160 false none)
        (List.replicate 1 (0 : ℕ))).get ⟨0, wide_pages_len_pos⟩ := by
  have hget := paginate_get
    (layoutWideCols (LabelGenerator.init 2790 2160 false none) * ROWS)
    (by decide)
    (layout_wide_labels (LabelGenerator.init 2790 2160 false none)
      (List.replicate 1 (0 : ℕ))) 0 wide_pages_len_pos
  rw [show (generate_color_set_pages (LabelGenerator.init 2790 2160 false none)
        (List.replicate 1 (0 : ℕ))).get ⟨0, wide_pages_len_pos⟩ =
      ((layout_wide_labels (LabelGenerator.init 2790 2160 false none)
          (List.replicate 1 (0 : ℕ))).drop
        (layoutWideCols (LabelGenerator.init 2790 2160 false none) * ROWS * 0)).take
        (layoutWideCols (LabelGenerator.init 2790 2160 false none) * ROWS)
    from hget]
  rw [Nat.mul_zero, List.drop_zero]
  rw [List.take_of_length_le
    (by rw [layout_wide_labels_length]; decide)]
  have hlay : layout_wide_labels (LabelGenerator.init 2790 2160 false none)
      (List.replicate 1 (0 : ℕ)) =
      [((0 : ℕ), widePos (LabelGenerator.init 2790 2160 false none)
        (layoutWideCols (LabelGenerator.init 2790 2160 false none)) 0)] := rfl
  rw [hlay]
  exact List.mem_singleton_self _

/-- Witness for **C4**: on letter paper with one item the label at global
index 0 is put on page 0 by the pagination of `generate_color_set_mode`. -/
theorem wide_layout_spec_witness :
    ((0 : ℕ), widePos (LabelGenerator.init 2790 2160 false none)
        (layoutWideCols (LabelGenerator.init 2790 2160 false none)) 0).2.page = 0 :=
  (wide_layout_spec (LabelGenerator.init 2790 2160 false none)
      (List.replicate 1 (0 : ℕ)) 0 (by decide)).2 0 wide_pages_len_pos _
    wide_witness_mem

/-- **C5 (code bug).** With a margin override of 0 on landscape letter
paper, the uniform layout places the item at global index 45 (column 3) at
`x = 2192.5`, so `x + cell_delta_x = 2890` exceeds the paper width 2790: the
claimed in-page invariant fails because `START_X`/`START_Y` stay at the
class constant 100 while `delta_x`/`delta_y` are recomputed from the
overridden margin. -/
theorem uniform_label_overflow :
    ((LabelGenerator.init 2790 2160 false (some 0)).width : ℚ) <
      ((layout_labels (LabelGenerator.init 2790 2160 false (some 0))
          (List.replicate 46 (0 : ℕ))).get
          ⟨45, by rw [layout_labels_length]; decide⟩).2.x +
        (LabelGenerator.init 2790 2160 false (some 0)).delta_x := by
  have h45 : 45 < (List.replicate 46 (0 : ℕ)).length := by decide
  rw [layout_labels_get (LabelGenerator.init 2790 2160 false (some 0))
    (List.replicate 46 (0 : ℕ)) 45 h45]
  simp only [uniformPos]
  norm_num [LabelGenerator.init, uniformCol, uniformRow, START_X, CLASS_MARGIN,
    ROWS, COLS]

/-- **C6 counterexample.** On letter paper with the default margin,
`cell_delta_x` of the portrait construction (490) differs from
`cell_delta_y` of the landscape construction, both on the same paper
(1960/15) and on the swapped paper (2590/15): the two deltas divide by
`COLS = 4` and `ROWS = 15` respectively, so they cannot coincide. -/
theorem portrait_delta_counterexample :
    (LabelGenerator.init 2790 2160 true none).delta_x ≠
        (LabelGenerator.init 2790 2160 false none).delta_y
    ∧ (LabelGenerator.init 2790 2160 true none).delta_x ≠
        (LabelGenerator.init 2160 2790 false none).delta_y := by
  constructor <;> norm_num [LabelGenerator.init, COLS, ROWS, CLASS_MARGIN]

/-- **C6 (amended).** Constructing with `portrait = True` swaps
`paper_width`/`paper_height` before `delta_x`/`delta_y` are derived: the
portrait construction on `(w, h)` has width `h` and height `w` and exactly
the `delta_x`/`delta_y` of the landscape construction on the swapped paper
`(h, w)` under the same margin; equivalently `COLS · delta_x(portrait)`
equals `ROWS · delta_y(landscape)` on the same paper, both being
`paper_height − 2·margin`. -/
theorem portrait_swap_spec (w h : ℤ) (m : Option ℤ) :
    (LabelGenerator.init w h true m).width = h
    ∧ (LabelGenerator.init w h true m).height = w
    ∧ (LabelGenerator.init w h true m).delta_x =
        (LabelGenerator.init h w false m).delta_x
    ∧ (LabelGenerator.init w h true m).delta_y =
        (LabelGenerator.init h w false m).delta_y
    ∧ (COLS : ℚ) * (LabelGenerator.init w h true m).delta_x =
        (ROWS : ℚ) * (LabelGenerator.init w h false m).delta_y := by
  refine ⟨rfl, rfl, rfl, rfl, ?_⟩
  show (COLS : ℚ) * (((h : ℚ) - 2 * ((m.getD CLASS_MARGIN : ℤ) : ℚ)) / (COLS : ℚ)) =
    (ROWS : ℚ) * (((h : ℚ) - 2 * ((m.getD CLASS_MARGIN : ℤ) : ℚ)) / (ROWS : ℚ))
  rw [mul_comm ((COLS : ℕ) : ℚ), div_mul_cancel₀ _ (by norm_num [COLS]),
    mul_comm ((ROWS : ℕ) : ℚ), div_mul_cancel₀ _ (by norm_num [ROWS])]

/-- **C7.** Uniform mode emits exactly `2·(COLS+1)` vertical guide tick
segments, and wide-mode vertical guide generation stops before emitting any
guide whose `x` exceeds `paper_width − margin`. -/
theorem cutting_guides_spec (g : LabelGenerator) (wc : Option ℕ) :
    (create_vertical_cutting_guides g).length = 2 * (COLS + 1)
    ∧ ∀ gd ∈ wide_vertical_guides g wc,
        gd.x1 ≤ ((g.width : ℚ) - (g.MARGIN : ℚ)) := by
  constructor
  · rfl
  · intro gd hgd
    cases wc with
    | none => simp [wide_vertical_guides] at hgd
    | some c =>
      simp only [wide_vertical_guides] at hgd
      rw [List.mem_flatMap] at hgd
      obtain ⟨i, hi, hgd2⟩ := hgd
      have hall := List.all_takeWhile (l := List.range (c + 1))
        (p := fun (i : ℕ) =>
          decide (g.MARGIN + (i : ℤ) * wideCellW ≤ g.width - g.MARGIN))
      rw [List.all_eq_true] at hall
      have hle : g.MARGIN + (i : ℤ) * wideCellW ≤ g.width - g.MARGIN :=
        of_decide_eq_true (hall i hi)
      have hq : (((g.MARGIN + (i : ℤ) * wideCellW : ℤ)) : ℚ) ≤
          ((g.width : ℚ) - (g.MARGIN : ℚ)) := by
        push_cast
        exact_mod_cast hle
      simp only [wideVerticalGuideTicks, List.mem_cons,
        List.not_mem_nil, or_false] at hgd2
      rcases hgd2 with h1 | h1 <;> (subst h1; exact hq)

theorem first_wide_guide_mem :
    ({ x1 := ((100 : ℤ) : ℚ), x2 := ((100 : ℤ) : ℚ),
       y1 := (100 : ℚ) / 2, y2 := (100 : ℚ) * (8 / 10) } : Guide) ∈
      wide_vertical_guides (LabelGenerator.init 2790 2160 false none)
        (some 2) := by
  simp only [wide_vertical_guides, wideVerticalGuideTicks]
  norm_num [LabelGenerator.init, CLASS_MARGIN, wideCellW, WIDE_LABEL_MM,
    List.range_succ]
  left
  simp only [wideVerticalGuideTicks]
  norm_num [CLASS_MARGIN]

/-- Witness for **C7**: the first wide-mode guide on letter paper (at
`x = 100`) satisfies the bound `x ≤ paper_width − margin = 2690`. -/
theorem cutting_guides_spec_witness :
    (({ x1 := ((100 : ℤ) : ℚ), x2 := ((100 : ℤ) : ℚ),
        y1 := (100 : ℚ) / 2, y2 := (100 : ℚ) * (8 / 10) } : Guide) ∈
      wide_vertical_guides (LabelGenerator.init 2790 2160 false none)
        (some 2)) ∧
    ({ x1 := ((100 : ℤ) : ℚ), x2 := ((100 : ℤ) : ℚ),
       y1 := (100 : ℚ) / 2, y2 := (100 : ℚ) * (8 / 10) } : Guide).x1 ≤
      (((LabelGenerator.init 2790 2160 false none).width : ℚ) -
        ((LabelGenerator.init 2790 2160 false none).MARGIN : ℚ)) :=
  ⟨first_wide_guide_mem,
    (cutting_guides_spec (LabelGenerator.init 2790 2160 false none)
      (some 2)).2 _ first_wide_guide_mem⟩

theorem lookup_mem {l : List (String × String)} {k v : String}
    (h : l.lookup k = some v) : (k, v) ∈ l := by
  rw [List.lookup_eq_some_iff] at h
  obtain ⟨l₁, l₂, rfl, -⟩ := h
  simp

theorem renameSet_fixed : ∀ p ∈ RENAME_SETS, renameSet p.2 = p.2 := by decide

/-- **C8.** The rename mapping is idempotent: a second application of the
name-override substitution changes nothing, because lookups key on the
original catalog name. -/
theorem rename_idempotent (n : String) :
    renameSet (renameSet n) = renameSet n := by
  rcases hl : RENAME_SETS.lookup n with _ | v
  · simp [renameSet, hl]
  · have h1 : renameSet n = v := by simp [renameSet, hl]
    rw [h1]
    exact renameSet_fixed (n, v) (lookup_mem hl)

theorem foldl_keep_eq_filter (p : SetRecord → Bool) (data : List SetRecord) :
    ∀ acc : List SetRecord,
      data.foldl (fun acc exp => if p exp then acc ++ [exp] else acc) acc =
        acc ++ data.filter p := by
  induction data with
  | nil => intro acc; simp
  | cons a l ih =>
    intro acc
    by_cases hp : p a
    · simp [List.foldl_cons, hp, ih, List.filter_cons]
    · simp [List.foldl_cons, hp, ih, List.filter_cons]

theorem keepRecord_eq_specKeep (g : LabelGenerator) (e : SetRecord) :
    keepRecord g e = specKeep g e := by
  unfold keepRecord specKeep
  by_cases h1 : e.code ∈ g.ignored_sets
  · simp [h1]
  · by_cases h2 : e.card_count < g.minimum_set_size
    · simp [h1, h2, Nat.not_le.mpr h2]
    · by_cases h3 : g.set_types ≠ [] ∧ e.set_type ∉ g.set_types
      · rcases h3 with ⟨h3a, h3b⟩
        simp [h1, h2, h3a, h3b, Nat.le_of_not_lt h2]
      · by_cases h4 : g.set_codes ≠ [] ∧ e.code.toLower ∉ g.set_codes
        · rcases h4 with ⟨h4a, h4b⟩
          push_neg at h3
          simp only [ne_eq, h4a, not_false_eq_true, h4b, and_self, if_true,
            if_neg h1, if_neg h2]
          by_cases h3c : g.set_types = []
          · simp [h3c, h1, h2, h4a, h4b, Nat.le_of_not_lt h2]
          · simp [h3c, h3 h3c, h1, h2, h4a, h4b, Nat.le_of_not_lt h2]
        · push_neg at h3 h4
          simp only [if_neg h1, if_neg h2]
          rw [if_neg, if_neg]
          · by_cases h3c : g.set_types = [] <;> by_cases h4c : g.set_codes = [] <;>
              simp [h3c, h4c, h1, h2, Nat.le_of_not_lt h2, h3, h4]
          · rintro ⟨ha, hb⟩
            exact hb (h4 ha)
          · rintro ⟨ha, hb⟩
            exact hb (h3 ha)

/-- **C9.** The selection stage keeps exactly the records surviving the four
drops of §4.1 (ignored code, size below threshold, category outside a
non-empty allowed set, lowercased code outside a non-empty allow-list),
returned in reversed catalog order, and the unknown-code warning fires for
exactly the listed codes matching no record of the full catalog. -/
theorem set_selection_spec (g : LabelGenerator) (data : List SetRecord) :
    get_set_data g data = specSelection g data
    ∧ ∀ c : String, unknown_set_warned g data c = specUnknownWarned g data c := by
  constructor
  · unfold get_set_data specSelection
    rw [foldl_keep_eq_filter]
    rw [List.nil_append]
    congr 1
    exact List.filter_congr (fun e _ => keepRecord_eq_specKeep g e)
  · intro c
    unfold unknown_set_warned specUnknownWarned
    congr 1
    rw [Bool.eq_iff_iff]
    simp only [decide_eq_true_eq, List.all_eq_true, List.mem_map,
      Bool.not_eq_eq_eq_not, Bool.not_true, beq_eq_false_iff_ne, ne_eq]
    constructor
    · intro hnot r hr
      exact fun heq => hnot ⟨r, hr, heq⟩
    · rintro hall ⟨r, hr, heq⟩
      exact hall r hr heq

/-- **C10.** Passing a non-empty explicit set list to `generate_labels` /
`generate_color_set_mode` permanently clears the ignore set, empties the
allowed category set and zeroes the minimum-size threshold (unlike the
constructor's defaults), a later call without an explicit list leaves that
mutated state in place, and the selection predicate then reduces to the
explicit code test alone — size/category/ignore filtering is disabled. -/
theorem explicit_sets_mutation_spec (paperW paperH : ℤ) (pt : Bool)
    (m : Option ℤ) (sets : List String) (hs : sets ≠ []) :
    ((LabelGenerator.init paperW paperH pt m).ignored_sets ≠ [] ∧
      (LabelGenerator.init paperW paperH pt m).minimum_set_size = 50 ∧
      (LabelGenerator.init paperW paperH pt m).set_types ≠ [])
    ∧ (applySetsArg (LabelGenerator.init paperW paperH pt m) sets).ignored_sets = []
    ∧ (applySetsArg (LabelGenerator.init paperW paperH pt m) sets).minimum_set_size = 0
    ∧ (applySetsArg (LabelGenerator.init paperW paperH pt m) sets).set_types = []
    ∧ applySetsArg (applySetsArg (LabelGenerator.init paperW paperH pt m) sets) [] =
        applySetsArg (LabelGenerator.init paperW paperH pt m) sets
    ∧ ∀ r : SetRecord,
        keepRecord (applySetsArg (LabelGenerator.init paperW paperH pt m) sets) r =
          decide (r.code.toLower ∈ sets.map String.toLower) := by
  refine ⟨⟨?_, rfl, ?_⟩, ?_, ?_, ?_, ?_, ?_⟩
  · simp [LabelGenerator.init, IGNORED_SETS]
  · simp [LabelGenerator.init, SET_TYPES]
  · simp [applySetsArg, hs]
  · simp [applySetsArg, hs]
  · simp [applySetsArg, hs]
  · simp [applySetsArg, hs]
  · intro r
    have hcodes : sets.map String.toLower ≠ [] := by
      simpa using hs
    simp only [applySetsArg, if_neg hs]
    unfold keepRecord
    by_cases hmem : r.code.toLower ∈ sets.map String.toLower
    · simp [hmem, hcodes]
    · simp [hmem, hcodes]

/-- Witness for **C10**: an explicit list `["LEA"]` clears the filters, and a
record with `card_count = 5` (far below the default threshold 50) is kept by
the code test alone. -/
theorem explicit_sets_mutation_spec_witness :
    ((["LEA"] : List String) ≠ []) ∧
      keepRecord (applySetsArg (LabelGenerator.init 2790 2160 false none) ["LEA"])
          ⟨"lea", "Limited Edition Alpha", "core", 5⟩ =
        decide ((⟨"lea", "Limited Edition Alpha", "core", 5⟩ :
          SetRecord).code.toLower ∈ (["LEA"] : List String).map String.toLower) :=
  ⟨by decide,
    (explicit_sets_mutation_spec 2790 2160 false none ["LEA"]
      (by decide)).2.2.2.2.2 ⟨"lea", "Limited Edition Alpha", "core", 5⟩⟩
